import Mathlib

/-
Verification of the coroutine library interface (namespace co, header co/co.h).

The repository snapshot contains only the public header: the bodies of
co::Event, co::Mutex and co::Pool live in a separate translation unit that is
not part of the snapshot, while the move constructors, MutexGuard and PoolGuard
are defined inline in the header. Definitions below that embed inline header
code say so in their doc comment; definitions for the missing bodies are
modelled from the specification and say so as well.

Coroutines are identified by natural-number ids. Raw pointers (void pointers
and T pointers in the header) are modelled as natural numbers with 0 playing
the role of the null pointer.
-/

namespace Co

/-- Modelled from the spec: the state of a co::Mutex. The body of co::Mutex is
not under src (only the header declaration is); spec section 4.4 describes it
as a held flag plus a FIFO waiter list of coroutine handles. The head of
waiters is the next coroutine to acquire the mutex. -/
structure MutexState where
  held : Bool
  waiters : List Nat
deriving DecidableEq, Repr

/-- Modelled from the spec: lock(), coroutine-only. If unheld, mark held and
return immediately (second component true = acquired without suspending); else
enqueue the caller at the tail of the waiter list and suspend (false). -/
def MutexState.lock (s : MutexState) (c : Nat) : MutexState × Bool :=
  if s.held then ({ s with waiters := s.waiters ++ [c] }, false)
  else ({ s with held := true }, true)

/-- Modelled from the spec: unlock(), callable from any thread. If the waiter
list is non-empty, hand off ownership directly to the head waiter: dequeue it
and return it as the woken coroutine, the mutex remaining held by that waiter.
If the waiter list is empty, mark unheld. -/
def MutexState.unlock (s : MutexState) : MutexState × Option Nat :=
  match s.waiters with
  | [] => ({ held := false, waiters := [] }, none)
  | c :: ws => ({ held := true, waiters := ws }, some c)

/-- Modelled from the spec: try_lock(), callable from any thread. Atomically
test-and-set the held flag; never enqueues, never blocks. -/
def MutexState.tryLock (s : MutexState) : MutexState × Bool :=
  if s.held then (s, false) else ({ s with held := true }, true)

/-- K coroutines calling lock in the given call order, each state-change folded
in sequence. -/
def MutexState.lockAll (s : MutexState) (cs : List Nat) : MutexState :=
  cs.foldl (fun t c => (t.lock c).1) s

/-- The acquisition order produced by n successive unlock calls: each unlock
that hands off appends the woken (now owning) coroutine to the order. -/
def MutexState.drain : MutexState → Nat → List Nat
  | _, 0 => []
  | s, n + 1 =>
    match s.unlock with
    | (s1, some c) => c :: s1.drain n
    | (s1, none) => s1.drain n

theorem MutexState.lockAll_of_held (s : MutexState) (cs : List Nat)
    (h : s.held = true) :
    s.lockAll cs = ⟨true, s.waiters ++ cs⟩ := by
  induction cs generalizing s with
  | nil =>
    cases s with
    | mk held waiters => simp_all [MutexState.lockAll]
  | cons c cs ih =>
    have hstep : (s.lock c).1 = ⟨true, s.waiters ++ [c]⟩ := by
      cases s with
      | mk held waiters => simp_all [MutexState.lock]
    have : s.lockAll (c :: cs) = ((s.lock c).1).lockAll cs := by
      simp [MutexState.lockAll, List.foldl]
    rw [this, hstep, ih ⟨true, s.waiters ++ [c]⟩ rfl]
    simp

theorem MutexState.drain_held (ws : List Nat) :
    MutexState.drain ⟨true, ws⟩ ws.length = ws := by
  induction ws with
  | nil => rfl
  | cons c ws ih =>
    simp only [List.length_cons, MutexState.drain, MutexState.unlock]
    exact congrArg (c :: ·) ih

/-- Claim C1: unlock with a non-empty waiter list hands ownership directly to
the head waiter, dequeuing it and leaving the mutex held; with an empty waiter
list it marks the mutex unheld. Consequently K coroutines calling lock against
an already-held mutex in call order cs acquire, over successive unlocks, in
exactly the order cs. -/
theorem mutex_unlock_fifo (s t u : MutexState) (cs ws : List Nat) (c : Nat)
    (hheld : s.held = true) (hnw : s.waiters = [])
    (ht : t.waiters = c :: ws) (hu : u.waiters = []) :
    t.unlock = (⟨true, ws⟩, some c) ∧
    u.unlock = (⟨false, []⟩, none) ∧
    (s.lockAll cs).drain cs.length = cs := by
  refine ⟨?_, ?_, ?_⟩
  · simp [MutexState.unlock, ht]
  · simp [MutexState.unlock, hu]
  · rw [MutexState.lockAll_of_held s cs hheld, hnw]
    simpa using MutexState.drain_held cs

/-- Witness for C1 at a concrete mutex with three queued lockers. -/
theorem mutex_unlock_fifo_witness :
    MutexState.unlock ⟨true, [5, 6]⟩ = (⟨true, [6]⟩, some 5) ∧
    MutexState.unlock ⟨true, []⟩ = (⟨false, []⟩, none) ∧
    (MutexState.lockAll ⟨true, []⟩ [1, 2, 3]).drain 3 = [1, 2, 3] :=
  mutex_unlock_fifo ⟨true, []⟩ ⟨true, [5, 6]⟩ ⟨true, []⟩ [1, 2, 3] [6] 5
    rfl rfl rfl rfl

/-- Claim C5: try_lock is an atomic test-and-set that never enqueues the
caller and never suspends: it returns false and leaves the state unchanged
when the mutex is held, returns true and acquires when it is unheld, and in
every case the waiter list is untouched (the caller is never enqueued; the
operation is a total function of the state, i.e. it cannot suspend). -/
theorem mutex_try_lock (s : MutexState) :
    (s.held = true → s.tryLock = (s, false)) ∧
    (s.held = false → s.tryLock = (⟨true, s.waiters⟩, true)) ∧
    s.tryLock.1.waiters = s.waiters := by
  refine ⟨fun h => by simp [MutexState.tryLock, h], fun h => ?_, ?_⟩
  · cases s with
    | mk held waiters => simp_all [MutexState.tryLock]
  · cases s with
    | mk held waiters => cases held <;> simp [MutexState.tryLock]

/-- Witness for C5 on a held and an unheld mutex. -/
theorem mutex_try_lock_witness :
    MutexState.tryLock ⟨true, [2]⟩ = (⟨true, [2]⟩, false) ∧
    MutexState.tryLock ⟨false, []⟩ = (⟨true, []⟩, true) :=
  ⟨(mutex_try_lock ⟨true, [2]⟩).1 rfl, (mutex_try_lock ⟨false, []⟩).2.1 rfl⟩

/-- Modelled from the spec: the state of a co::Event. The body of co::Event is
not under src (only the header declaration is); spec section 3 describes it as
a signaled flag plus a FIFO list of waiting coroutine handles. -/
structure EventState where
  signaled : Bool
  waiters : List Nat
deriving DecidableEq, Repr

/-- Modelled from the spec: signal(), callable from anywhere. Atomically marks
the event signaled and moves every coroutine currently in the waiter list to
Ready (broadcast, not single-wake; the woken coroutines are returned as the
second component), then clears the waiter list. The signaled flag is transient:
once delivered to the waiters present at signal time it is cleared, so the
resulting state has the flag down. -/
def EventState.signal (s : EventState) : EventState × List Nat :=
  ({ signaled := false, waiters := [] }, s.waiters)

/-- Modelled from the spec: wait(), coroutine-only. Under latched semantics a
wait on a signaled event would return immediately (second component true);
since the flag is transient the caller is appended to the waiter list and
blocks (false) whenever the flag is down. -/
def EventState.wait (s : EventState) (c : Nat) : EventState × Bool :=
  if s.signaled then (s, true)
  else ({ s with waiters := s.waiters ++ [c] }, false)

/-- Modelled from the spec: the expiry path of wait(ms), coroutine-only. A
wait that times out removes its own entry from the waiter list under the event
lock and returns false. -/
def EventState.waitTimeout (s : EventState) (c : Nat) : EventState × Bool :=
  ({ s with waiters := s.waiters.erase c }, false)

/-- K coroutines calling wait in sequence: the folded state together with a
flag that is true iff every one of the waits blocked (none returned
immediately, i.e. none resumed before a signal). -/
def EventState.waitSeq (s : EventState) (cs : List Nat) : EventState × Bool :=
  cs.foldl (fun p c => ((p.1.wait c).1, p.2 && !(p.1.wait c).2)) (s, true)

theorem EventState.waitSeq_of_unsignaled (s : EventState) (cs : List Nat)
    (h : s.signaled = false) :
    s.waitSeq cs = (⟨false, s.waiters ++ cs⟩, true) := by
  induction cs generalizing s with
  | nil =>
    cases s with
    | mk sf ws => simp_all [EventState.waitSeq]
  | cons c cs ih =>
    have hstep : s.wait c = (⟨false, s.waiters ++ [c]⟩, false) := by
      cases s with
      | mk sf ws => simp_all [EventState.wait]
    have hfold : s.waitSeq (c :: cs) = (⟨false, s.waiters ++ [c]⟩ : EventState).waitSeq cs := by
      simp [EventState.waitSeq, List.foldl, hstep]
    rw [hfold, ih ⟨false, s.waiters ++ [c]⟩ rfl]
    simp

/-- Claim C2: a signal wakes all coroutines currently in the waiter list
(broadcast) and clears the list: if K coroutines each call wait before any
signal (starting from an idle event), every one of them blocks (none resumes
before the signal) and the single signal then wakes exactly those K coroutines
and leaves the waiter list empty. -/
theorem event_signal_broadcast (s : EventState) (cs : List Nat)
    (hs : s.signaled = false) (hw : s.waiters = []) :
    (s.waitSeq cs).2 = true ∧
    ((s.waitSeq cs).1.signal).2 = cs ∧
    ((s.waitSeq cs).1.signal).2.length = cs.length ∧
    ((s.waitSeq cs).1.signal).1.waiters = [] := by
  rw [EventState.waitSeq_of_unsignaled s cs hs, hw]
  simp [EventState.signal]

/-- Witness for C2: three waiters, one signal, three resumptions in order. -/
theorem event_signal_broadcast_witness :
    (EventState.waitSeq ⟨false, []⟩ [4, 7, 9]).2 = true ∧
    ((EventState.waitSeq ⟨false, []⟩ [4, 7, 9]).1.signal).2 = [4, 7, 9] ∧
    ((EventState.waitSeq ⟨false, []⟩ [4, 7, 9]).1.signal).2.length = 3 ∧
    ((EventState.waitSeq ⟨false, []⟩ [4, 7, 9]).1.signal).1.waiters = [] :=
  event_signal_broadcast ⟨false, []⟩ [4, 7, 9] rfl rfl

/-- Claim C3: a coroutine whose wait(ms) expires with no matching signal gets
false back, and the timed-out waiter removes its own entry, restoring the
waiter list it joined; a signal arriving strictly after the timeout wakes
every remaining waiter but not the timed-out coroutine. -/
theorem event_wait_timeout (s : EventState) (c : Nat)
    (hs : s.signaled = false) (hc : c ∉ s.waiters) :
    ((s.wait c).1.waitTimeout c).2 = false ∧
    ((s.wait c).1.waitTimeout c).1.waiters = s.waiters ∧
    c ∉ (((s.wait c).1.waitTimeout c).1.signal).2 := by
  have hstep : (s.wait c).1 = ⟨false, s.waiters ++ [c]⟩ := by
    cases s with
    | mk sf ws => simp_all [EventState.wait]
  have herase : (s.waiters ++ [c]).erase c = s.waiters := by
    rw [List.erase_append_right _ hc]
    simp
  rw [hstep]
  exact ⟨rfl, by simp [EventState.waitTimeout, herase],
    by simpa [EventState.waitTimeout, EventState.signal, herase] using hc⟩

/-- Witness for C3: coroutine 3 joins behind waiter 1, times out, and the late
signal wakes only waiter 1. -/
theorem event_wait_timeout_witness :
    ((EventState.wait ⟨false, [1]⟩ 3).1.waitTimeout 3).2 = false ∧
    ((EventState.wait ⟨false, [1]⟩ 3).1.waitTimeout 3).1.waiters = [1] ∧
    3 ∉ (((EventState.wait ⟨false, [1]⟩ 3).1.waitTimeout 3).1.signal).2 :=
  event_wait_timeout ⟨false, [1]⟩ 3 rfl (by decide)

/-- Claim C4: event signaling is transient, not latched: after a signal has
been delivered to the waiters present at signal time, the flag is down, so a
subsequent wait with no new signal blocks again (it enqueues the caller and
does not return immediately). -/
theorem event_signal_transient (s : EventState) (c : Nat) :
    (s.signal).1.signaled = false ∧
    ((s.signal).1.wait c).2 = false ∧
    ((s.signal).1.wait c).1.waiters = [c] := by
  simp [EventState.signal, EventState.wait]

/-- Modelled from the spec: the per-thread state of a co::Pool, whose body is
not under src (only the header declaration is). A free list of elements (void
pointers, modelled as Nat with 0 for null), an optional create callback, a flag
recording whether a destroy callback is configured, and the capacity bound.
The header documents that cap is ignored when no destroy callback is set. -/
structure PoolState where
  ccb : Option (Unit → Nat)
  hasDcb : Bool
  cap : Nat
  freeList : List Nat

/-- Modelled from the spec: pop(), coroutine-only. Returns the top of the
calling thread free list if non-empty; otherwise, if a create callback is
configured, invokes it and returns the created element; otherwise returns the
null pointer 0 (not a fault). The third component records whether the create
callback was invoked. -/
def PoolState.pop (s : PoolState) : PoolState × Nat × Bool :=
  match s.freeList with
  | x :: rest => ({ s with freeList := rest }, x, false)
  | [] =>
    match s.ccb with
    | some f => (s, f (), true)
    | none => (s, 0, false)

/-- Modelled from the spec: push(p), coroutine-only. A no-op if p is null;
otherwise, if the calling thread free list is below capacity, p goes on top of
the list; otherwise the destroy callback is invoked on p immediately (returned
as the second component) and p is not retained. The capacity bound is enforced
only when a destroy callback is configured, matching the header comment that
cap is ignored without one. -/
def PoolState.push (s : PoolState) (p : Nat) : PoolState × Option Nat :=
  if p = 0 then (s, none)
  else if s.hasDcb = true ∧ s.cap ≤ s.freeList.length then (s, some p)
  else ({ s with freeList := p :: s.freeList }, none)

/-- Claim C6: pop returns the top of the calling thread free list when it is
non-empty; otherwise it invokes the create callback when one is configured and
returns the created element; otherwise it returns null, leaving the pool
unchanged, and this null result is an ordinary return value, not a fault. -/
theorem pool_pop_cases (s : PoolState) (x : Nat) (rest : List Nat)
    (f : Unit → Nat) :
    (s.freeList = x :: rest → s.pop = ({ s with freeList := rest }, x, false)) ∧
    (s.freeList = [] → s.ccb = some f → s.pop = (s, f (), true)) ∧
    (s.freeList = [] → s.ccb = none → s.pop = (s, 0, false)) := by
  refine ⟨fun h => by simp [PoolState.pop, h], fun h hc => ?_, fun h hc => ?_⟩ <;>
    simp [PoolState.pop, h, hc]

/-- Witness for C6 covering the three pop branches. -/
theorem pool_pop_cases_witness :
    PoolState.pop ⟨none, false, 0, [7, 8]⟩ = (⟨none, false, 0, [8]⟩, 7, false) ∧
    PoolState.pop ⟨some (fun _ => 5), false, 0, []⟩
      = (⟨some (fun _ => 5), false, 0, []⟩, 5, true) ∧
    PoolState.pop ⟨none, false, 0, []⟩ = (⟨none, false, 0, []⟩, 0, false) :=
  ⟨(pool_pop_cases ⟨none, false, 0, [7, 8]⟩ 7 [8] (fun _ => 5)).1 rfl,
   (pool_pop_cases ⟨some (fun _ => 5), false, 0, []⟩ 0 [] (fun _ => 5)).2.1 rfl rfl,
   (pool_pop_cases ⟨none, false, 0, []⟩ 0 [] (fun _ => 5)).2.2 rfl rfl⟩

/-- Claim C7: push of null is a no-op; below capacity (or whenever no destroy
callback is configured, capacity then being treated as unbounded) the element
is added to the free list; at capacity with a destroy callback configured the
destroy callback receives p immediately, p is not retained, and a subsequent
pop does not return p (provided p was not already in the list and the create
callback cannot fabricate it). -/
theorem pool_push_spec (s : PoolState) (p : Nat) (hp : p ≠ 0)
    (hmem : p ∉ s.freeList) (hccb : ∀ f, s.ccb = some f → f () ≠ p) :
    s.push 0 = (s, none) ∧
    (¬(s.hasDcb = true ∧ s.cap ≤ s.freeList.length) →
        s.push p = ({ s with freeList := p :: s.freeList }, none)) ∧
    (s.hasDcb = true → s.cap ≤ s.freeList.length →
        s.push p = (s, some p) ∧ ((s.push p).1.pop).2.1 ≠ p) := by
  refine ⟨by simp [PoolState.push], fun h => by simp [PoolState.push, hp, h],
    fun hd hc => ?_⟩
  have hpush : s.push p = (s, some p) := by simp [PoolState.push, hp, hd, hc]
  refine ⟨hpush, ?_⟩
  rw [hpush]
  match hl : s.freeList with
  | x :: rest =>
    have hx : x ≠ p := by
      intro he
      exact hmem (hl ▸ (he ▸ List.mem_cons_self x rest))
    simp [PoolState.pop, hl, hx]
  | [] =>
    match hc2 : s.ccb with
    | some f => simpa [PoolState.pop, hl, hc2] using hccb f hc2
    | none => simp [PoolState.pop, hl, hc2, Ne.symm hp]

/-- Witness for C7: a pool at capacity 1 with a destroy callback destroys the
overflow element 9, and the subsequent pop returns 4, not 9. -/
theorem pool_push_spec_witness :
    PoolState.push ⟨none, true, 1, [4]⟩ 0 = (⟨none, true, 1, [4]⟩, none) ∧
    PoolState.push ⟨none, true, 1, [4]⟩ 9 = (⟨none, true, 1, [4]⟩, some 9) ∧
    ((PoolState.push ⟨none, true, 1, [4]⟩ 9).1.pop).2.1 ≠ 9 :=
  have h := pool_push_spec ⟨none, true, 1, [4]⟩ 9 (by decide) (by decide)
    (fun f hf => by cases hf)
  have h2 := h.2.2 rfl (by decide)
  ⟨h.1, h2.1, h2.2⟩

/-- Claim C8: on a thread whose pool is below capacity (or whose capacity is
unbounded because no destroy callback is configured), push of a non-null x
immediately followed by pop returns the same element x, restores the pool
state, and does not invoke the create callback. -/
theorem pool_push_pop_roundtrip (s : PoolState) (p : Nat) (hp : p ≠ 0)
    (hcap : s.hasDcb = false ∨ s.freeList.length < s.cap) :
    ((s.push p).1.pop) = (s, p, false) := by
  have hnot : ¬(s.hasDcb = true ∧ s.cap ≤ s.freeList.length) := by
    rcases hcap with h | h
    · exact fun hc => by simp [h] at hc
    · exact fun hc => absurd hc.2 (Nat.not_le.mpr h)
  have hpush : s.push p = ({ s with freeList := p :: s.freeList }, none) := by
    simp [PoolState.push, hp, hnot]
  rw [hpush]
  simp [PoolState.pop]

/-- Witness for C8: pushing 6 onto an unbounded pool and popping returns 6
without the create callback firing. -/
theorem pool_push_pop_roundtrip_witness :
    ((PoolState.push ⟨none, false, 0, [2]⟩ 6).1.pop)
      = (⟨none, false, 0, [2]⟩, 6, false) :=
  pool_push_pop_roundtrip ⟨none, false, 0, [2]⟩ 6 (by decide) (Or.inl rfl)

/-- The opaque pimpl handle _p of a co::Event object; 0 is the null pointer. -/
structure EventH where
  p : Nat
deriving DecidableEq, Repr

/-- The opaque pimpl handle _p of a co::Mutex object; 0 is the null pointer. -/
structure MutexH where
  p : Nat
deriving DecidableEq, Repr

/-- The opaque pimpl handle _p of a co::Pool object; 0 is the null pointer. -/
structure PoolH where
  p : Nat
deriving DecidableEq, Repr

/-- Embedded from the header move constructor of Event, which copies the
source handle into the destination and sets the source handle to 0. Returns
(destination, moved-from source). -/
def EventH.moveCtor (e : EventH) : EventH × EventH := (⟨e.p⟩, ⟨0⟩)

/-- Embedded from the header move constructor of Mutex, same shape as the
Event one. -/
def MutexH.moveCtor (m : MutexH) : MutexH × MutexH := (⟨m.p⟩, ⟨0⟩)

/-- Embedded from the header move constructor of Pool, same shape as the
Event one. -/
def PoolH.moveCtor (q : PoolH) : PoolH × PoolH := (⟨q.p⟩, ⟨0⟩)

/-- Modelled from the spec: destruction of a handle-owning object releases the
underlying object exactly when the handle is non-null (spec section 9: the
nulled source handle prevents double-release). The destructor bodies are not
under src. Returns the handle released, if any. -/
def EventH.release (e : EventH) : Option Nat := if e.p = 0 then none else some e.p

/-- Modelled from the spec: destructor release for Mutex, as for Event. -/
def MutexH.release (m : MutexH) : Option Nat := if m.p = 0 then none else some m.p

/-- Modelled from the spec: destructor release for Pool, as for Event. -/
def PoolH.release (q : PoolH) : Option Nat := if q.p = 0 then none else some q.p

/-- Claim C9: moving an Event, Mutex or Pool transfers the internal handle to
the destination and nulls the source handle, so a moved-from object releases
nothing and a double-release cannot occur. -/
theorem move_transfers_ownership (e : EventH) (m : MutexH) (q : PoolH) :
    (e.moveCtor.1.p = e.p ∧ e.moveCtor.2.p = 0 ∧ e.moveCtor.2.release = none) ∧
    (m.moveCtor.1.p = m.p ∧ m.moveCtor.2.p = 0 ∧ m.moveCtor.2.release = none) ∧
    (q.moveCtor.1.p = q.p ∧ q.moveCtor.2.p = 0 ∧ q.moveCtor.2.release = none) := by
  simp [EventH.moveCtor, MutexH.moveCtor, PoolH.moveCtor,
    EventH.release, MutexH.release, PoolH.release]

/-- The state of a PoolGuard: the held pointer _p (a T pointer, modelled as a
Nat with 0 for null). -/
structure PoolGuardState where
  held : Nat
deriving DecidableEq, Repr

/-- Embedded from the header PoolGuard constructor, which stores the result of
pool.pop() as the held pointer. Returns the guard and the updated pool. -/
def PoolGuardState.ctor (pool : PoolState) : PoolGuardState × PoolState :=
  (⟨pool.pop.2.1⟩, pool.pop.1)

/-- Embedded from the header PoolGuard destructor, which pushes the currently
held pointer back to the pool. -/
def PoolGuardState.dtor (g : PoolGuardState) (pool : PoolState) :
    PoolState × Option Nat :=
  pool.push g.held

/-- Embedded from the header PoolGuard reset, which deletes the held pointer
and stores p when they differ, and does nothing when they are equal. The
second component is the pointer handed to delete, if any. -/
def PoolGuardState.reset (g : PoolGuardState) (p : Nat) :
    PoolGuardState × Option Nat :=
  if g.held ≠ p then (⟨p⟩, some g.held) else (g, none)

/-- Claim C10: a PoolGuard on pool P stores the result of P.pop() at
construction; at destruction it pushes the currently held pointer back to P;
and reset(p) deletes the previously held pointer and stores p, except when p
equals the held pointer, in which case reset is a no-op and no delete
occurs. -/
theorem poolguard_spec (pool : PoolState) (g : PoolGuardState) (p : Nat) :
    (PoolGuardState.ctor pool).1.held = pool.pop.2.1 ∧
    (PoolGuardState.ctor pool).2 = pool.pop.1 ∧
    g.dtor pool = pool.push g.held ∧
    (g.held ≠ p → g.reset p = (⟨p⟩, some g.held)) ∧
    (g.held = p → g.reset p = (g, none)) := by
  refine ⟨rfl, rfl, rfl, fun h => by simp [PoolGuardState.reset, h],
    fun h => by simp [PoolGuardState.reset, h]⟩

/-- Witness for C10 on a pool holding element 4 and a guard holding 7. -/
theorem poolguard_spec_witness :
    (PoolGuardState.ctor ⟨none, false, 0, [4]⟩).1.held = 4 ∧
    (PoolGuardState.ctor ⟨none, false, 0, [4]⟩).2 = ⟨none, false, 0, []⟩ ∧
    PoolGuardState.dtor ⟨7⟩ ⟨none, false, 0, []⟩
      = (⟨none, false, 0, [7]⟩, none) ∧
    PoolGuardState.reset ⟨7⟩ 2 = (⟨2⟩, some 7) ∧
    PoolGuardState.reset ⟨7⟩ 7 = (⟨7⟩, none) :=
  have h := poolguard_spec ⟨none, false, 0, [4]⟩ ⟨7⟩ 2
  have h7 := poolguard_spec ⟨none, false, 0, []⟩ ⟨7⟩ 7
  ⟨h.1, h.2.1, h7.2.2.1, h.2.2.2.1 (by decide), h7.2.2.2.2 rfl⟩

end Co
